import Mathlib

/-!
Shallow embedding of `src/main.py` (a two-team round-based battle arena) and
verification of its specification claims.

Conventions of the embedding:
* Python `int` is `Int` (unbounded); Python `float` crit values are `ℚ`
  (the program only ever forms sums, `min`, comparisons and one product
  `damage * 1.8` of such values, all exact at the magnitudes the program uses).
* `int(x * 1.8)` (truncation toward zero) on an integer `x` is `(x * 9).tdiv 5`.
* Mutation of a `Unit`'s `hp` field is explicit state passing; units inside a
  team are addressed by `(side, index)` references so that aliasing in the
  round loop (the snapshot turn order versus live team state) is faithful.
* The injected sources of randomness (`random.choice`, `random.random`) are
  universally quantified streams `picks : Nat → Nat` and `rolls : Nat → ℚ`.
* Interactive `input()` scripts are finite lists of parsed choices
  (`ShopInput`); an exhausted script ends the interaction loop.
-/

namespace Arena

/-- The `Weapon` dataclass (src/main.py lines 22-26): three upgrade bonuses,
all starting at zero. -/
structure Weapon where
  damage_bonus : Int
  crit_bonus : ℚ
  speed_bonus : Int
deriving DecidableEq, Repr

/-- A fresh `Weapon()` with all-default fields. -/
def Weapon.new : Weapon := ⟨0, 0, 0⟩

/-- The `Unit` dataclass fields (src/main.py lines 29-39). -/
structure Unit where
  name : String
  max_hp : Int
  attack : Int
  defense : Int
  crit : ℚ
  speed : Int
  is_hero : Bool
  weapon : Option Weapon
  hp : Int
deriving DecidableEq, Repr

instance : Inhabited Unit := ⟨⟨"", 0, 0, 0, 0, 0, false, none, 0⟩⟩

/-- Construction of a `Unit`: the dataclass constructor followed by
`__post_init__` (src/main.py lines 41-42), which sets `hp = max_hp`. -/
def mkUnit (name : String) (max_hp attack defense : Int) (crit : ℚ)
    (speed : Int) (is_hero : Bool) (weapon : Option Weapon) : Unit :=
  ⟨name, max_hp, attack, defense, crit, speed, is_hero, weapon, max_hp⟩

/-- `Unit.is_alive` (src/main.py lines 44-45): `hp > 0`. -/
def Unit.is_alive (u : Unit) : Bool := decide (0 < u.hp)

/-- `Unit.effective_attack` (src/main.py lines 47-50). -/
def Unit.effective_attack (u : Unit) : Int :=
  match u.weapon with
  | some w => if u.is_hero then u.attack + w.damage_bonus else u.attack
  | none => u.attack

/-- `Unit.effective_crit` (src/main.py lines 52-55): the combination of base
crit and weapon crit bonus is clamped to `0.75`. -/
def Unit.effective_crit (u : Unit) : ℚ :=
  match u.weapon with
  | some w => if u.is_hero then min (3/4) (u.crit + w.crit_bonus) else u.crit
  | none => u.crit

/-- `Unit.effective_speed` (src/main.py lines 57-60). -/
def Unit.effective_speed (u : Unit) : Int :=
  match u.weapon with
  | some w => if u.is_hero then u.speed + w.speed_bonus else u.speed
  | none => u.speed

/-- `Unit.take_hit` (src/main.py lines 62-65): mitigated damage is
`max(1, raw_damage - defense)`, hp drops by that amount floored at 0, and the
mitigated amount is returned alongside the updated unit. -/
def Unit.take_hit (u : Unit) (raw_damage : Int) : Unit × Int :=
  let mitigated := max 1 (raw_damage - u.defense)
  ({ u with hp := max 0 (u.hp - mitigated) }, mitigated)

/-- The `Team` dataclass (src/main.py lines 68-71). -/
structure Team where
  name : String
  units : List Unit
deriving DecidableEq, Repr

/-- `Team.alive_units` (src/main.py lines 73-74). -/
def Team.alive_units (t : Team) : List Unit :=
  t.units.filter (fun u => u.is_alive)

/-- `Team.is_defeated` (src/main.py lines 76-77). -/
def Team.is_defeated (t : Team) : Bool :=
  t.units.all (fun u => !u.is_alive)

/-- Configuration constants (src/main.py lines 4-6). -/
def START_GOLD : Int := 20

def ROUND_INCOME : Int := 5

def MAX_UNITS : Nat := 6

/-- One entry of `UNIT_CATALOG` (src/main.py lines 8-13). -/
structure UnitTemplate where
  name : String
  cost : Int
  max_hp : Int
  attack : Int
  defense : Int
  crit : ℚ
  speed : Int
deriving DecidableEq, Repr

instance : Inhabited UnitTemplate := ⟨⟨"", 0, 0, 0, 0, 0, 0⟩⟩

/-- `UNIT_CATALOG` (src/main.py lines 8-13). -/
def UNIT_CATALOG : List UnitTemplate :=
  [⟨"Swordsman", 4, 24, 7, 2, 5/100, 5⟩,
   ⟨"Archer", 5, 18, 9, 1, 10/100, 7⟩,
   ⟨"Guardian", 6, 32, 6, 4, 3/100, 3⟩,
   ⟨"Rogue", 5, 20, 8, 1, 15/100, 8⟩]

/-- The `key` tags of the upgrade catalog (src/main.py lines 15-19). -/
inductive UpgradeKey
  | damage
  | crit
  | speed
deriving DecidableEq, Repr

/-- One entry of `UPGRADES` (src/main.py lines 15-19).  The Python `value`
field carries an `int` for damage/speed upgrades and a `float` for the crit
upgrade; the embedding splits it by type into `int_value` and `rat_value`. -/
structure Upgrade where
  key : UpgradeKey
  label : String
  cost : Int
  int_value : Int
  rat_value : ℚ
deriving DecidableEq, Repr

instance : Inhabited Upgrade := ⟨⟨.damage, "", 0, 0, 0⟩⟩

/-- `UPGRADES` (src/main.py lines 15-19). -/
def UPGRADES : List Upgrade :=
  [⟨.damage, "+2 Weapon Damage", 6, 2, 0⟩,
   ⟨.crit, "+5% Crit Chance", 5, 0, 5/100⟩,
   ⟨.speed, "+1 Weapon Speed", 4, 1, 0⟩]

/-- `create_hero` (src/main.py lines 88-98). -/
def create_hero (name : String) (weapon : Weapon) : Unit :=
  mkUnit name 30 8 2 (10/100) 6 true (some weapon)

/-- `create_unit` (src/main.py lines 101-109). -/
def create_unit (t : UnitTemplate) : Unit :=
  mkUnit t.name t.max_hp t.attack t.defense t.crit t.speed false none

/-- One parsed line of interactive `input()`: `done` is the `"d"` choice,
`num n` a line that `isdigit()` parses to `n`, `other` any other line. -/
inductive ShopInput
  | done
  | num (n : Nat)
  | other
deriving DecidableEq, Repr

/-- Weapon mutation performed by a confirmed upgrade purchase
(src/main.py lines 168-173, identically lines 193-198): additive for damage
and speed, clamped to `0.75` for crit. -/
def applyUpgrade (w : Weapon) (up : Upgrade) : Weapon :=
  match up.key with
  | .damage => { w with damage_bonus := w.damage_bonus + up.int_value }
  | .crit => { w with crit_bonus := min (3/4) (w.crit_bonus + up.rat_value) }
  | .speed => { w with speed_bonus := w.speed_bonus + up.int_value }

/-- `run_prematch_shop` (src/main.py lines 112-141), driven by a finite input
script (an exhausted script ends the loop with the current state).  The cap
check happens at the top of each loop iteration, before input is read; a
purchase is only performed when `gold < cost` fails. -/
def run_prematch_shop : Int → Team → List ShopInput → Int × Team
  | gold, team, [] => (gold, team)
  | gold, team, inp :: rest =>
    if MAX_UNITS ≤ team.units.length then (gold, team)
    else
      match inp with
      | .done => (gold, team)
      | .other => run_prematch_shop gold team rest
      | .num n =>
        if 1 ≤ n ∧ n ≤ UNIT_CATALOG.length then
          let pick := UNIT_CATALOG.getD (n - 1) default
          if gold < pick.cost then run_prematch_shop gold team rest
          else
            run_prematch_shop (gold - pick.cost)
              { team with units := team.units ++ [create_unit pick] } rest
        else run_prematch_shop gold team rest

/-- `run_upgrade_shop` (src/main.py lines 144-173), driven by a finite input
script.  A purchase subtracts the cost and applies the upgrade to the weapon;
an unaffordable pick is rejected before any mutation. -/
def run_upgrade_shop : Int → Weapon → List ShopInput → Int × Weapon
  | gold, w, [] => (gold, w)
  | gold, w, inp :: rest =>
    match inp with
    | .done => (gold, w)
    | .other => run_upgrade_shop gold w rest
    | .num n =>
      if 1 ≤ n ∧ n ≤ UPGRADES.length then
        let up := UPGRADES.getD (n - 1) default
        if gold < up.cost then run_upgrade_shop gold w rest
        else run_upgrade_shop (gold - up.cost) (applyUpgrade w up) rest
      else run_upgrade_shop gold w rest

/-- `ai_buy_units` (src/main.py lines 176-184), with the stream of
`random.choice` outcomes given as a finite list of indices (an exhausted list
ends the loop).  The loop runs while the cheapest catalog unit is affordable
and the team is below the cap; a pick costing more than the balance is
skipped (`continue`) without mutation. -/
def ai_buy_units : Int → Team → List Nat → Int × Team
  | gold, team, [] => (gold, team)
  | gold, team, p :: rest =>
    let minCost := ((UNIT_CATALOG.map (fun t => t.cost)).min?).getD 0
    if minCost ≤ gold ∧ team.units.length < MAX_UNITS then
      let pick := UNIT_CATALOG.getD (p % UNIT_CATALOG.length) default
      if pick.cost > gold then ai_buy_units gold team rest
      else
        ai_buy_units (gold - pick.cost)
          { team with units := team.units ++ [create_unit pick] } rest
    else (gold, team)

/-- `ai_upgrade_weapon` (src/main.py lines 187-199): filter the affordable
upgrades, return unchanged when none is affordable, otherwise buy the one the
random pick selects. -/
def ai_upgrade_weapon (gold : Int) (w : Weapon) (p : Nat) : Int × Weapon :=
  let affordable := UPGRADES.filter (fun u => u.cost ≤ gold)
  if h : affordable.length = 0 then (gold, w)
  else
    let up := affordable.get ⟨p % affordable.length, Nat.mod_lt _ (Nat.pos_of_ne_zero h)⟩
    (gold - up.cost, applyUpgrade w up)

/-- A reference into the live round state: `(true, i)` is unit `i` of the
player team, `(false, i)` unit `i` of the enemy team.  Python's round loop
holds references to mutable `Unit` objects; the embedding addresses them by
position. -/
abbrev URef := Bool × Nat

/-- Dereference a unit position in the current round state. -/
def deref (p e : Team) (r : URef) : Unit :=
  (if r.1 then p.units else e.units).getD r.2 default

/-- Write back a unit at a position of the current round state. -/
def setRef (p e : Team) (r : URef) (u : Unit) : Team × Team :=
  if r.1 then ({ p with units := p.units.set r.2 u }, e)
  else (p, { e with units := e.units.set r.2 u })

/-- Positions of the currently alive units of a roster, in roster order
(the reference-level image of `Team.alive_units`). -/
def aliveIdx (l : List Unit) : List Nat :=
  (List.range l.length).filter (fun i => (l.getD i default).is_alive)

/-- The pre-sort concatenation of src/main.py line 204:
`player.alive_units() + enemy.alive_units()`, as references. -/
def aliveRefs (p e : Team) : List URef :=
  (aliveIdx p.units).map (fun i => (true, i)) ++ (aliveIdx e.units).map (fun i => (false, i))

/-- The turn order of src/main.py lines 204-205: the alive members of both
teams, stably sorted descending by effective speed (Python's `list.sort` with
`reverse=True` is stable; `List.insertionSort` with this relation computes
the same stable descending order). -/
def turnOrder (p e : Team) : List URef :=
  List.insertionSort
    (fun a b => (deref p e b).effective_speed ≤ (deref p e a).effective_speed)
    (aliveRefs p e)

/-- Target pool selection of src/main.py line 210:
`targets = enemy.alive_units() if attacker in player.units else player.alive_units()`.
Python's `in` compares dataclass values, so the embedding tests value
membership of the attacker in the player roster. -/
def targetRefsFor (p e : Team) (attacker : Unit) : List URef :=
  if attacker ∈ p.units then (aliveIdx e.units).map (fun i => (false, i))
  else (aliveIdx p.units).map (fun i => (true, i))

/-- Damage roll of src/main.py lines 214-219: base damage is the attacker's
effective attack; when the crit roll `r` is below the attacker's effective
crit the damage becomes `int(damage * 1.8)`, i.e. `(damage * 9).tdiv 5`
(truncation toward zero; `1.8 = 9/5` exactly as rationals).  The second
component records whether the hit was a crit. -/
def rollDamage (u : Unit) (r : ℚ) : Int × Bool :=
  let damage := u.effective_attack
  if r < u.effective_crit then ((damage * 9).tdiv 5, true) else (damage, false)

/-- One attack of the round loop (src/main.py lines 213-221): choose the
target in the current pool with the injected pick, roll damage, and apply
`take_hit` to the target in place. -/
def attackStep (p e : Team) (attacker : Unit) (targets : List URef)
    (pick : Nat) (roll : ℚ) : Team × Team :=
  let tr := targets.getD (pick % targets.length) (true, 0)
  let damage := (rollDamage attacker roll).1
  setRef p e tr ((deref p e tr).take_hit damage).1

/-- The per-attacker round loop (src/main.py lines 207-221) over the
snapshot turn order: a dead attacker is skipped, an empty target pool breaks
out of the loop, otherwise one attack is performed.  `i` counts iterations to
index the injected random streams. -/
def runAttacks (picks : Nat → Nat) (rolls : Nat → ℚ) :
    Nat → List URef → Team → Team → Team × Team
  | _, [], p, e => (p, e)
  | i, r :: rest, p, e =>
    let attacker := deref p e r
    if attacker.hp ≤ 0 then runAttacks picks rolls (i + 1) rest p e
    else
      let targets := targetRefsFor p e attacker
      if targets.length = 0 then (p, e)
      else
        let st := attackStep p e attacker targets (picks i) (rolls i)
        runAttacks picks rolls (i + 1) rest st.1 st.2

/-- The four possible results of `fight_round`. -/
inductive RoundResult
  | continue_
  | player
  | enemy
  | draw
deriving DecidableEq, Repr

/-- Outcome classification of src/main.py lines 223-232 from the post-round
alive counts. -/
def classify (player_alive enemy_alive : Nat) : RoundResult :=
  if enemy_alive = 0 ∧ player_alive = 0 then .draw
  else if enemy_alive = 0 then .player
  else if player_alive = 0 then .enemy
  else .continue_

/-- `fight_round` (src/main.py lines 202-232): build the snapshot turn order,
run the attack loop, and classify the outcome from the post-round alive
counts.  Returns the updated teams together with the result. -/
def fight_round (picks : Nat → Nat) (rolls : Nat → ℚ) (p e : Team) :
    (Team × Team) × RoundResult :=
  let st := runAttacks picks rolls 0 (turnOrder p e) p e
  (st, classify st.1.alive_units.length st.2.alive_units.length)

/-- The per-round income applied to each balance at the start of a
non-terminal economy phase (src/main.py lines 278-279):
`gold += ROUND_INCOME + 2`. -/
def applyRoundIncome (gold : Int) : Int := gold + (ROUND_INCOME + 2)

/-- The spec's economy-ledger error taxonomy for an unaffordable purchase. -/
inductive ShopError
  | insufficientFunds
deriving DecidableEq, Repr

/-- The affordability-guarded spend step shared by every purchase site
(src/main.py lines 136-141, 163-167, 180-183, 188-192): a cost exceeding the
balance is rejected before any mutation, otherwise the cost is subtracted.
The rejection is surfaced with the spec's `InsufficientFunds` tag. -/
def try_spend (gold cost : Int) : Except ShopError Int :=
  if gold < cost then .error .insufficientFunds else .ok (gold - cost)

/-! ## Infrastructure lemmas about the round state -/

theorem is_alive_iff (u : Unit) : u.is_alive = true ↔ 0 < u.hp := by
  simp [Unit.is_alive]

theorem getD_set_ite (l : List Unit) (j : Nat) (u : Unit) (i : Nat) :
    (l.set j u).getD i default = if i = j ∧ j < l.length then u else l.getD i default := by
  rw [List.getD_eq_getElem?_getD, List.getElem?_set]
  by_cases h1 : j = i
  · subst h1
    by_cases h2 : j < l.length
    · rw [if_pos rfl, if_pos h2, if_pos ⟨rfl, h2⟩, Option.getD_some]
    · rw [if_pos rfl, if_neg h2, if_neg (fun hc => h2 hc.2),
        List.getD_eq_getElem?_getD, List.getElem?_eq_none (by omega), Option.getD_none]
  · rw [if_neg h1, if_neg (fun hc => h1 hc.1.symm), ← List.getD_eq_getElem?_getD]

theorem mem_aliveIdx {l : List Unit} {i : Nat} :
    i ∈ aliveIdx l ↔ i < l.length ∧ (l.getD i default).is_alive = true := by
  simp [aliveIdx, List.mem_filter, List.mem_range]

theorem map_getD_aliveIdx (l : List Unit) :
    (aliveIdx l).map (fun i => l.getD i default) = l.filter (fun u => u.is_alive) := by
  induction l with
  | nil => rfl
  | cons x xs ih =>
    simp only [aliveIdx, List.length_cons, List.range_succ_eq_map, List.filter_cons,
      List.getD_cons_zero, List.getD_cons_succ] at ih ⊢
    by_cases hx : x.is_alive = true
    · simp only [hx, if_true, List.map_cons, List.getD_cons_zero, List.filter_map,
        List.map_map, Function.comp_def, List.getD_cons_succ]
      exact congrArg _ ih
    · simp only [hx, Bool.false_eq_true, if_false, List.filter_map, List.map_map,
        Function.comp_def, List.getD_cons_succ]
      exact ih

/-- C1: for every entity and every non-negative integer raw damage,
`take_hit` computes mitigated damage `max(1, rawDamage - defense)` (so the
result is at least 1 regardless of how large defense is), decreases current
health by that mitigated amount floored at 0, and returns the mitigated
amount. -/
theorem C1_take_hit_mitigation (u : Unit) (raw : Int) (_hraw : 0 ≤ raw) :
    (u.take_hit raw).2 = max 1 (raw - u.defense) ∧
    1 ≤ (u.take_hit raw).2 ∧
    (u.take_hit raw).1.hp = max 0 (u.hp - max 1 (raw - u.defense)) :=
  ⟨rfl, le_max_left _ _, rfl⟩

theorem C1_take_hit_mitigation_witness :
    0 ≤ (9 : Int) ∧
    (((mkUnit "A" 24 7 2 0 5 false none).take_hit 9).2
        = max 1 (9 - (mkUnit "A" 24 7 2 0 5 false none).defense) ∧
      1 ≤ ((mkUnit "A" 24 7 2 0 5 false none).take_hit 9).2 ∧
      ((mkUnit "A" 24 7 2 0 5 false none).take_hit 9).1.hp
        = max 0 ((mkUnit "A" 24 7 2 0 5 false none).hp
            - max 1 (9 - (mkUnit "A" 24 7 2 0 5 false none).defense))) :=
  ⟨by decide, C1_take_hit_mitigation (mkUnit "A" 24 7 2 0 5 false none) 9 (by decide)⟩

/-- C9 counterexample: hitting an entity whose current health is already 0
returns a positive damage amount (here `max(1, 5 - 2) = 3 > 0`), refuting
the claim that such a call is a no-op returning 0 or disallowed and in
particular never returns a positive amount. -/
theorem C9_counterexample :
    (Unit.take_hit ⟨"D", 10, 3, 2, 0, 4, false, none, 0⟩ 5).2 = 3 ∧
    0 < (Unit.take_hit ⟨"D", 10, 3, 2, 0, 4, false, none, 0⟩ 5).2 := by
  decide

/-- C9 (amended): invoking `take_hit` on an entity whose current health is
already 0 has no effect on its state (health stays 0, every field unchanged),
but it is not rejected and does not return 0: it returns the usual mitigated
amount `max(1, rawDamage - defense)`, which is always positive. -/
theorem C9_dead_hit_state_frozen (u : Unit) (raw : Int) (h : u.hp = 0) :
    (u.take_hit raw).1 = u ∧
    (u.take_hit raw).2 = max 1 (raw - u.defense) ∧
    1 ≤ (u.take_hit raw).2 := by
  refine ⟨?_, rfl, le_max_left _ _⟩
  have h1 : (1 : Int) ≤ max 1 (raw - u.defense) := le_max_left _ _
  have h2 : max 0 (u.hp - max 1 (raw - u.defense)) = u.hp := by omega
  show ({ u with hp := max 0 (u.hp - max 1 (raw - u.defense)) } : Unit) = u
  rw [h2]

theorem C9_dead_hit_state_frozen_witness :
    (⟨"D", 10, 3, 2, 0, 4, false, none, 0⟩ : Unit).hp = 0 ∧
    ((Unit.take_hit ⟨"D", 10, 3, 2, 0, 4, false, none, 0⟩ 7).1
        = ⟨"D", 10, 3, 2, 0, 4, false, none, 0⟩ ∧
      (Unit.take_hit ⟨"D", 10, 3, 2, 0, 4, false, none, 0⟩ 7).2
        = max 1 (7 - (⟨"D", 10, 3, 2, 0, 4, false, none, 0⟩ : Unit).defense) ∧
      1 ≤ (Unit.take_hit ⟨"D", 10, 3, 2, 0, 4, false, none, 0⟩ 7).2) :=
  ⟨by decide, C9_dead_hit_state_frozen ⟨"D", 10, 3, 2, 0, 4, false, none, 0⟩ 7 (by decide)⟩

/-- C5: effective crit is clamped to at most `0.75` at the point where base
crit and weapon crit bonus are combined; the accumulated weapon crit bonus is
itself capped at `0.75` by every upgrade operation; hence no sequence of
upgrades can make a hero's effective crit exceed `0.75`. -/
theorem C5_crit_clamped :
    (∀ (u : Unit) (w : Weapon), u.is_hero = true → u.weapon = some w →
      u.effective_crit ≤ 3/4) ∧
    (∀ (w : Weapon) (up : Upgrade), w.crit_bonus ≤ 3/4 →
      (applyUpgrade w up).crit_bonus ≤ 3/4) ∧
    (∀ (up : Upgrade), up.key = .crit → ∀ w : Weapon,
      (applyUpgrade w up).crit_bonus ≤ 3/4) ∧
    (∀ (name : String) (mh atk df : Int) (cr : ℚ) (sp : Int) (w : Weapon)
      (ups : List Upgrade),
      (mkUnit name mh atk df cr sp true (some (ups.foldl applyUpgrade w))).effective_crit
        ≤ 3/4) := by
  refine ⟨?_, ?_, ?_, ?_⟩
  · intro u w h1 h2
    simp only [Unit.effective_crit, h2, h1, if_true]
    exact min_le_left _ _
  · intro w up h
    cases hk : up.key <;> simp only [applyUpgrade, hk]
    · exact h
    · exact min_le_left _ _
    · exact h
  · intro up hk w
    simp only [applyUpgrade, hk]
    exact min_le_left _ _
  · intro name mh atk df cr sp w ups
    simp only [mkUnit, Unit.effective_crit]
    exact min_le_left _ _

theorem C5_crit_clamped_witness :
    (create_hero "Hero" Weapon.new).is_hero = true ∧
    (create_hero "Hero" Weapon.new).weapon = some Weapon.new ∧
    (create_hero "Hero" Weapon.new).effective_crit ≤ 3/4 :=
  ⟨by decide, by decide,
    C5_crit_clamped.1 (create_hero "Hero" Weapon.new) Weapon.new (by decide) (by decide)⟩

/-- C8: round income of base `5` plus fixed bonus `2 = 7` is added to a gold
balance by the economy phase, and spending follows the scenario: balance 20
plus one income yields 27, buying the cost-6 upgrade through the upgrade shop
yields 21, and attempting to spend 30 from balance 21 fails with
`InsufficientFunds`, with no balance mutation and no clamping. -/
theorem C8_economy_scenario :
    ROUND_INCOME + 2 = 7 ∧
    applyRoundIncome 20 = 27 ∧
    (∀ w : Weapon, run_upgrade_shop (applyRoundIncome 20) w [.num 1, .done]
      = (21, applyUpgrade w (UPGRADES.getD 0 default))) ∧
    try_spend 27 6 = .ok 21 ∧
    try_spend 21 30 = .error .insufficientFunds :=
  ⟨by decide, by decide, fun _ => rfl, rfl, rfl⟩

/-- The interactive pre-match shop never drives gold negative: every purchase
is guarded by the `gold < cost` check. -/
theorem run_prematch_shop_gold_nonneg (script : List ShopInput) :
    ∀ (gold : Int) (team : Team), 0 ≤ gold → 0 ≤ (run_prematch_shop gold team script).1 := by
  induction script with
  | nil => intro g t h; exact h
  | cons inp rest ih =>
    intro g t h
    cases inp with
    | done =>
      rw [run_prematch_shop]
      split
      · exact h
      · exact h
    | other =>
      rw [run_prematch_shop]
      split
      · exact h
      · exact ih g t h
    | num n =>
      rw [run_prematch_shop]
      split
      · exact h
      · split
        · dsimp only
          split
          · exact ih g t h
          · exact ih _ _ (by omega)
        · exact ih g t h

/-- The interactive upgrade shop never drives gold negative. -/
theorem run_upgrade_shop_gold_nonneg (script : List ShopInput) :
    ∀ (gold : Int) (w : Weapon), 0 ≤ gold → 0 ≤ (run_upgrade_shop gold w script).1 := by
  induction script with
  | nil => intro g w h; exact h
  | cons inp rest ih =>
    intro g w h
    cases inp with
    | done => exact h
    | other => exact ih g w h
    | num n =>
      rw [run_upgrade_shop]
      split
      · dsimp only
        split
        · exact ih g w h
        · exact ih _ _ (by omega)
      · exact ih g w h

/-- The automated unit-buying policy never drives gold negative: an
unaffordable random pick is skipped without mutation. -/
theorem ai_buy_units_gold_nonneg (picks : List Nat) :
    ∀ (gold : Int) (team : Team), 0 ≤ gold → 0 ≤ (ai_buy_units gold team picks).1 := by
  induction picks with
  | nil => intro g t h; exact h
  | cons p rest ih =>
    intro g t h
    rw [ai_buy_units]
    split
    · dsimp only
      split
      · exact ih g t h
      · exact ih _ _ (by omega)
    · exact h

/-- The automated upgrade policy never drives gold negative: it only picks
among the affordable upgrades. -/
theorem ai_upgrade_weapon_gold_nonneg (gold : Int) (w : Weapon) (p : Nat)
    (h : 0 ≤ gold) : 0 ≤ (ai_upgrade_weapon gold w p).1 := by
  rw [ai_upgrade_weapon]
  split
  · exact h
  · rename_i hne
    dsimp only
    rw [sub_nonneg]
    have hm := List.get_mem (UPGRADES.filter (fun u => u.cost ≤ gold))
      (p % (UPGRADES.filter (fun u => u.cost ≤ gold)).length)
      (Nat.mod_lt _ (Nat.pos_of_ne_zero hne))
    have hc := (List.mem_filter.1 hm).2
    simp only [decide_eq_true_eq] at hc
    exact hc

/-- When the player roster has no alive member, its alive index list is
empty. -/
theorem aliveIdx_eq_nil_of_alive_units_eq_nil {t : Team} (h : t.alive_units = []) :
    aliveIdx t.units = [] := by
  have hm := map_getD_aliveIdx t.units
  rw [show t.units.filter (fun u => u.is_alive) = t.alive_units from rfl, h] at hm
  exact List.map_eq_nil_iff.mp hm

/-- Every unit of a roster with no alive member is dead. -/
theorem all_dead_of_alive_units_eq_nil {t : Team} (h : t.alive_units = []) :
    ∀ u ∈ t.units, ¬ u.is_alive = true := by
  intro u hu
  exact List.filter_eq_nil_iff.mp h u hu

/-- C7: if one team has no alive members before the round starts while the
other has at least one, `fight_round` returns the corresponding win result
for the other side and leaves both teams (in particular every entity's
current health) unchanged. -/
theorem C7_prestart_defeat (picks : Nat → Nat) (rolls : Nat → ℚ) (p e : Team) :
    (p.alive_units = [] → e.alive_units ≠ [] →
      fight_round picks rolls p e = ((p, e), .enemy)) ∧
    (e.alive_units = [] → p.alive_units ≠ [] →
      fight_round picks rolls p e = ((p, e), .player)) := by
  constructor
  · intro h1 h2
    have hIdxP : aliveIdx p.units = [] := aliveIdx_eq_nil_of_alive_units_eq_nil h1
    have hst : runAttacks picks rolls 0 (turnOrder p e) p e = (p, e) := by
      cases hto : turnOrder p e with
      | nil => rfl
      | cons r rest =>
        have hrmem : r ∈ aliveRefs p e := by
          have hr : r ∈ turnOrder p e := hto ▸ List.mem_cons_self r rest
          exact (List.mem_insertionSort _).1 hr
        rw [aliveRefs, hIdxP, List.map_nil, List.nil_append] at hrmem
        obtain ⟨i, hi, hri⟩ := List.mem_map.1 hrmem
        have hiAlive : (e.units.getD i default).is_alive = true := (mem_aliveIdx.1 hi).2
        rw [runAttacks]
        dsimp only
        rw [← hri]
        have hhp : ¬ (deref p e (false, i)).hp ≤ 0 := by
          have := (is_alive_iff _).1 hiAlive
          show ¬ (e.units.getD i default).hp ≤ 0
          omega
        rw [if_neg hhp]
        have hmemP : deref p e (false, i) ∉ p.units := by
          intro hmem
          exact all_dead_of_alive_units_eq_nil h1 _ hmem hiAlive
        have htlen : (targetRefsFor p e (deref p e (false, i))).length = 0 := by
          rw [targetRefsFor, if_neg hmemP, hIdxP]
          rfl
        rw [if_pos htlen]
    show (runAttacks picks rolls 0 (turnOrder p e) p e,
      classify (runAttacks picks rolls 0 (turnOrder p e) p e).1.alive_units.length
        (runAttacks picks rolls 0 (turnOrder p e) p e).2.alive_units.length) = ((p, e), .enemy)
    rw [hst]
    have hlen : e.alive_units.length ≠ 0 := fun hc => h2 (List.length_eq_zero.mp hc)
    simp only [classify, h1, List.length_nil]
    rw [if_neg (fun hc => hlen hc.1), if_neg hlen, if_pos trivial]
  · intro h1 h2
    have hIdxE : aliveIdx e.units = [] := aliveIdx_eq_nil_of_alive_units_eq_nil h1
    have hst : runAttacks picks rolls 0 (turnOrder p e) p e = (p, e) := by
      cases hto : turnOrder p e with
      | nil => rfl
      | cons r rest =>
        have hrmem : r ∈ aliveRefs p e := by
          have hr : r ∈ turnOrder p e := hto ▸ List.mem_cons_self r rest
          exact (List.mem_insertionSort _).1 hr
        rw [aliveRefs, hIdxE, List.map_nil, List.append_nil] at hrmem
        obtain ⟨i, hi, hri⟩ := List.mem_map.1 hrmem
        have hiAlive : (p.units.getD i default).is_alive = true := (mem_aliveIdx.1 hi).2
        have hilen : i < p.units.length := (mem_aliveIdx.1 hi).1
        rw [runAttacks]
        dsimp only
        rw [← hri]
        have hhp : ¬ (deref p e (true, i)).hp ≤ 0 := by
          have := (is_alive_iff _).1 hiAlive
          show ¬ (p.units.getD i default).hp ≤ 0
          omega
        rw [if_neg hhp]
        have hmemP : deref p e (true, i) ∈ p.units := by
          show p.units.getD i default ∈ p.units
          rw [List.getD_eq_getElem p.units default hilen]
          exact List.getElem_mem hilen
        have htlen : (targetRefsFor p e (deref p e (true, i))).length = 0 := by
          rw [targetRefsFor, if_pos hmemP, hIdxE]
          rfl
        rw [if_pos htlen]
    show (runAttacks picks rolls 0 (turnOrder p e) p e,
      classify (runAttacks picks rolls 0 (turnOrder p e) p e).1.alive_units.length
        (runAttacks picks rolls 0 (turnOrder p e) p e).2.alive_units.length) = ((p, e), .player)
    rw [hst]
    have hlen : p.alive_units.length ≠ 0 := fun hc => h2 (List.length_eq_zero.mp hc)
    simp only [classify, h1, List.length_nil]
    rw [if_neg (fun hc => hlen hc.2), if_pos trivial]

theorem C7_prestart_defeat_witness :
    ((⟨"P", [⟨"D", 10, 3, 2, 0, 4, false, none, 0⟩]⟩ : Team).alive_units = [] ∧
      (⟨"E", [mkUnit "B" 18 9 1 0 7 false none]⟩ : Team).alive_units ≠ []) ∧
    fight_round (fun _ => 0) (fun _ => 1/2)
        ⟨"P", [⟨"D", 10, 3, 2, 0, 4, false, none, 0⟩]⟩
        ⟨"E", [mkUnit "B" 18 9 1 0 7 false none]⟩
      = ((⟨"P", [⟨"D", 10, 3, 2, 0, 4, false, none, 0⟩]⟩,
          ⟨"E", [mkUnit "B" 18 9 1 0 7 false none]⟩), .enemy) :=
  ⟨⟨by decide, by decide⟩,
    (C7_prestart_defeat (fun _ => 0) (fun _ => 1/2)
        ⟨"P", [⟨"D", 10, 3, 2, 0, 4, false, none, 0⟩]⟩
        ⟨"E", [mkUnit "B" 18 9 1 0 7 false none]⟩).1 (by decide) (by decide)⟩

/-- C10: every shop and upgrade operation, interactive or automated, checks
affordability before subtracting, so each of `run_prematch_shop`,
`run_upgrade_shop`, `ai_buy_units` and `ai_upgrade_weapon` returns a
non-negative gold balance whenever it starts from one; gold never goes below
zero. -/
theorem C10_gold_never_negative :
    (∀ (gold : Int) (team : Team) (script : List ShopInput), 0 ≤ gold →
      0 ≤ (run_prematch_shop gold team script).1) ∧
    (∀ (gold : Int) (w : Weapon) (script : List ShopInput), 0 ≤ gold →
      0 ≤ (run_upgrade_shop gold w script).1) ∧
    (∀ (gold : Int) (team : Team) (picks : List Nat), 0 ≤ gold →
      0 ≤ (ai_buy_units gold team picks).1) ∧
    (∀ (gold : Int) (w : Weapon) (p : Nat), 0 ≤ gold →
      0 ≤ (ai_upgrade_weapon gold w p).1) :=
  ⟨fun g t s h => run_prematch_shop_gold_nonneg s g t h,
   fun g w s h => run_upgrade_shop_gold_nonneg s g w h,
   fun g t s h => ai_buy_units_gold_nonneg s g t h,
   fun g w p h => ai_upgrade_weapon_gold_nonneg g w p h⟩

/-- C6: every call to `fight_round` returns exactly one of the four outcomes
(the `RoundResult` type has exactly the four constructors `continue_`,
`player`, `enemy`, `draw`), and the outcome is `classify` of the post-round
alive counts, where `classify` maps both-zero to draw, enemy-zero-only to a
player win, player-zero-only to an enemy win, and anything else to continue,
exhaustively and mutually exclusively. -/
theorem C6_outcome_classification :
    (∀ (picks : Nat → Nat) (rolls : Nat → ℚ) (p e : Team),
      (fight_round picks rolls p e).2
        = classify (fight_round picks rolls p e).1.1.alive_units.length
            (fight_round picks rolls p e).1.2.alive_units.length) ∧
    (∀ pa ea : Nat,
      (classify pa ea = .draw ↔ pa = 0 ∧ ea = 0) ∧
      (classify pa ea = .player ↔ ea = 0 ∧ 0 < pa) ∧
      (classify pa ea = .enemy ↔ pa = 0 ∧ 0 < ea) ∧
      (classify pa ea = .continue_ ↔ 0 < pa ∧ 0 < ea)) := by
  constructor
  · intro picks rolls p e
    rfl
  · intro pa ea
    unfold classify
    split_ifs with h1 h2 h3
    · exact ⟨iff_of_true rfl (by omega), iff_of_false (fun hc => nomatch hc) (by omega),
        iff_of_false (fun hc => nomatch hc) (by omega),
        iff_of_false (fun hc => nomatch hc) (by omega)⟩
    · exact ⟨iff_of_false (fun hc => nomatch hc) (by omega), iff_of_true rfl (by omega),
        iff_of_false (fun hc => nomatch hc) (by omega),
        iff_of_false (fun hc => nomatch hc) (by omega)⟩
    · exact ⟨iff_of_false (fun hc => nomatch hc) (by omega),
        iff_of_false (fun hc => nomatch hc) (by omega), iff_of_true rfl (by omega),
        iff_of_false (fun hc => nomatch hc) (by omega)⟩
    · exact ⟨iff_of_false (fun hc => nomatch hc) (by omega),
        iff_of_false (fun hc => nomatch hc) (by omega),
        iff_of_false (fun hc => nomatch hc) (by omega), iff_of_true rfl (by omega)⟩

theorem C10_gold_never_negative_witness :
    0 ≤ (20 : Int) ∧
    0 ≤ (run_prematch_shop 20 ⟨"P", []⟩ [ShopInput.num 1, ShopInput.done]).1 ∧
    0 ≤ (run_upgrade_shop 20 Weapon.new [ShopInput.num 1, ShopInput.done]).1 ∧
    0 ≤ (ai_buy_units 20 ⟨"E", []⟩ [0, 1, 2, 3]).1 ∧
    0 ≤ (ai_upgrade_weapon 20 Weapon.new 0).1 :=
  ⟨by decide,
   C10_gold_never_negative.1 20 ⟨"P", []⟩ [ShopInput.num 1, ShopInput.done] (by decide),
   C10_gold_never_negative.2.1 20 Weapon.new [ShopInput.num 1, ShopInput.done] (by decide),
   C10_gold_never_negative.2.2.1 20 ⟨"E", []⟩ [0, 1, 2, 3] (by decide),
   C10_gold_never_negative.2.2.2 20 Weapon.new 0 (by decide)⟩

theorem take_hit_fst_hp (u : Unit) (d : Int) :
    (u.take_hit d).1.hp = max 0 (u.hp - max 1 (d - u.defense)) := rfl

theorem take_hit_fst_max_hp (u : Unit) (d : Int) :
    (u.take_hit d).1.max_hp = u.max_hp := rfl

/-- Reading the round state after a positional write: either the position
read is the position written (and the written unit is read back), or the
read is unchanged. -/
theorem deref_setRef_eq_or (p e : Team) (tr : URef) (u : Unit) (r : URef) :
    (r = tr ∧ deref (setRef p e tr u).1 (setRef p e tr u).2 r = u) ∨
    deref (setRef p e tr u).1 (setRef p e tr u).2 r = deref p e r := by
  rcases tr with ⟨tb, ti⟩
  rcases r with ⟨rb, ri⟩
  cases tb <;> cases rb <;>
    simp only [setRef, deref, Bool.false_eq_true, if_true, if_false, Prod.mk.injEq]
  · rw [getD_set_ite]
    by_cases hc : ri = ti ∧ ti < e.units.length
    · exact Or.inl ⟨⟨trivial, hc.1⟩, if_pos hc⟩
    · exact Or.inr (if_neg hc)
  · exact Or.inr trivial
  · exact Or.inr trivial
  · rw [getD_set_ite]
    by_cases hc : ri = ti ∧ ti < p.units.length
    · exact Or.inl ⟨⟨trivial, hc.1⟩, if_pos hc⟩
    · exact Or.inr (if_neg hc)

/-- One attack never increases any unit's current health, never drives it
negative, and leaves every unit's max health unchanged. -/
theorem attackStep_hp (p e : Team) (attacker : Unit) (targets : List URef)
    (pick : Nat) (roll : ℚ) (r : URef) :
    (deref (attackStep p e attacker targets pick roll).1
        (attackStep p e attacker targets pick roll).2 r).max_hp
      = (deref p e r).max_hp
    ∧ (0 ≤ (deref p e r).hp →
        0 ≤ (deref (attackStep p e attacker targets pick roll).1
              (attackStep p e attacker targets pick roll).2 r).hp
        ∧ (deref (attackStep p e attacker targets pick roll).1
              (attackStep p e attacker targets pick roll).2 r).hp ≤ (deref p e r).hp) := by
  unfold attackStep
  dsimp only
  rcases deref_setRef_eq_or p e (targets.getD (pick % targets.length) (true, 0))
      ((deref p e (targets.getD (pick % targets.length) (true, 0))).take_hit
        (rollDamage attacker roll).1).1 r with ⟨h1, h2⟩ | h2
  · rw [h2, h1, take_hit_fst_max_hp, take_hit_fst_hp]
    refine ⟨rfl, fun h0 => ⟨le_max_left 0 _, ?_⟩⟩
    have hm : (1 : Int) ≤ max 1 ((rollDamage attacker roll).1
        - (deref p e (targets.getD (pick % targets.length) (true, 0))).defense) :=
      le_max_left _ _
    omega
  · rw [h2]
    exact ⟨rfl, fun h0 => ⟨h0, le_refl _⟩⟩

/-- The whole attack loop never increases any unit's current health, never
drives it negative, and leaves every unit's max health unchanged. -/
theorem runAttacks_hp (picks : Nat → Nat) (rolls : Nat → ℚ) (refs : List URef) :
    ∀ (i : Nat) (p e : Team) (r : URef), 0 ≤ (deref p e r).hp →
      (deref (runAttacks picks rolls i refs p e).1
          (runAttacks picks rolls i refs p e).2 r).max_hp = (deref p e r).max_hp
      ∧ 0 ≤ (deref (runAttacks picks rolls i refs p e).1
          (runAttacks picks rolls i refs p e).2 r).hp
      ∧ (deref (runAttacks picks rolls i refs p e).1
          (runAttacks picks rolls i refs p e).2 r).hp ≤ (deref p e r).hp := by
  induction refs with
  | nil => intro i p e r h0; exact ⟨rfl, h0, le_refl _⟩
  | cons rf rest ih =>
    intro i p e r h0
    rw [runAttacks]
    dsimp only
    split_ifs with h1 h2
    · exact ih (i + 1) p e r h0
    · exact ⟨rfl, h0, le_refl _⟩
    · have hstep := attackStep_hp p e (deref p e rf)
        (targetRefsFor p e (deref p e rf)) (picks i) (rolls i) r
      have h0' := (hstep.2 h0).1
      have hrec := ih (i + 1) _ _ r h0'
      exact ⟨hrec.1.trans hstep.1, hrec.2.1, hrec.2.2.trans (hstep.2 h0).2⟩

/-- C2: current health is initialized to max health at creation, `take_hit`
keeps it within `[0, max health]` and never increases it, and a whole combat
round (`fight_round`, the only operation that mutates health) keeps every
unit's current health within `[0, max health]` and never increases it. -/
theorem C2_health_invariant :
    (∀ (name : String) (mh atk df : Int) (cr : ℚ) (sp : Int) (hero : Bool)
      (w : Option Weapon), (mkUnit name mh atk df cr sp hero w).hp = mh) ∧
    (∀ (u : Unit) (raw : Int), 0 ≤ u.hp → u.hp ≤ u.max_hp →
      0 ≤ (u.take_hit raw).1.hp ∧ (u.take_hit raw).1.hp ≤ u.hp ∧
      (u.take_hit raw).1.hp ≤ (u.take_hit raw).1.max_hp) ∧
    (∀ (picks : Nat → Nat) (rolls : Nat → ℚ) (p e : Team) (r : URef),
      0 ≤ (deref p e r).hp → (deref p e r).hp ≤ (deref p e r).max_hp →
      0 ≤ (deref (fight_round picks rolls p e).1.1 (fight_round picks rolls p e).1.2 r).hp
      ∧ (deref (fight_round picks rolls p e).1.1 (fight_round picks rolls p e).1.2 r).hp
          ≤ (deref p e r).hp
      ∧ (deref (fight_round picks rolls p e).1.1 (fight_round picks rolls p e).1.2 r).hp
          ≤ (deref (fight_round picks rolls p e).1.1
              (fight_round picks rolls p e).1.2 r).max_hp) := by
  refine ⟨fun _ _ _ _ _ _ _ _ => rfl, ?_, ?_⟩
  · intro u raw h0 hmax
    rw [take_hit_fst_hp, take_hit_fst_max_hp]
    have hm : (1 : Int) ≤ max 1 (raw - u.defense) := le_max_left _ _
    omega
  · intro picks rolls p e r h0 hmax
    have hrun := runAttacks_hp picks rolls (turnOrder p e) 0 p e r h0
    exact ⟨hrun.2.1, hrun.2.2, le_trans (hrun.2.2.trans hmax) (le_of_eq hrun.1.symm)⟩

theorem C2_health_invariant_witness :
    (0 ≤ (deref ⟨"P", [mkUnit "A" 24 7 2 0 5 false none]⟩
        ⟨"E", [mkUnit "B" 18 9 1 0 7 false none]⟩ (true, 0)).hp ∧
      (deref ⟨"P", [mkUnit "A" 24 7 2 0 5 false none]⟩
        ⟨"E", [mkUnit "B" 18 9 1 0 7 false none]⟩ (true, 0)).hp
        ≤ (deref ⟨"P", [mkUnit "A" 24 7 2 0 5 false none]⟩
            ⟨"E", [mkUnit "B" 18 9 1 0 7 false none]⟩ (true, 0)).max_hp) ∧
    (deref (fight_round (fun _ => 0) (fun _ => 1/2)
        ⟨"P", [mkUnit "A" 24 7 2 0 5 false none]⟩
        ⟨"E", [mkUnit "B" 18 9 1 0 7 false none]⟩).1.1
      (fight_round (fun _ => 0) (fun _ => 1/2)
        ⟨"P", [mkUnit "A" 24 7 2 0 5 false none]⟩
        ⟨"E", [mkUnit "B" 18 9 1 0 7 false none]⟩).1.2 (true, 0)).hp
      ≤ (deref ⟨"P", [mkUnit "A" 24 7 2 0 5 false none]⟩
          ⟨"E", [mkUnit "B" 18 9 1 0 7 false none]⟩ (true, 0)).hp :=
  ⟨⟨by decide, by decide⟩,
    (C2_health_invariant.2.2 (fun _ => 0) (fun _ => 1/2)
      ⟨"P", [mkUnit "A" 24 7 2 0 5 false none]⟩
      ⟨"E", [mkUnit "B" 18 9 1 0 7 false none]⟩ (true, 0)
      (by decide) (by decide)).2.1⟩

/-- Dereferencing the alive references of both teams yields exactly the
pre-sort concatenation `player.alive_units() + enemy.alive_units()` of
src/main.py line 204. -/
theorem map_deref_aliveRefs (p e : Team) :
    (aliveRefs p e).map (deref p e) = p.alive_units ++ e.alive_units := by
  unfold aliveRefs
  rw [List.map_append, List.map_map, List.map_map]
  have h1 : (deref p e ∘ fun i => ((true : Bool), i)) = fun i => p.units.getD i default := rfl
  have h2 : (deref p e ∘ fun i => ((false : Bool), i)) = fun i => e.units.getD i default := rfl
  rw [h1, h2, map_getD_aliveIdx, map_getD_aliveIdx]
  rfl

/-- The turn order, read back as unit values, is the stable descending
insertion sort of the pre-sort concatenation. -/
theorem map_deref_turnOrder (p e : Team) :
    (turnOrder p e).map (deref p e)
      = List.insertionSort (fun a b => b.effective_speed ≤ a.effective_speed)
          (p.alive_units ++ e.alive_units) := by
  unfold turnOrder
  rw [List.map_insertionSort
    (fun a b => (deref p e b).effective_speed ≤ (deref p e a).effective_speed)
    (fun a b => b.effective_speed ≤ a.effective_speed)
    (deref p e) (aliveRefs p e) (fun _ _ _ _ => Iff.rfl)]
  rw [map_deref_aliveRefs]

/-- Filtering on one key value commutes with a descending ordered insert:
the inserted element lands in front of the equal-key elements already
present, and the skipped elements all have strictly larger keys. -/
theorem filter_orderedInsert_key (key : Unit → Int) (s : Int) (x : Unit)
    (l : List Unit) :
    (List.orderedInsert (fun a b => key b ≤ key a) x l).filter (fun u => key u = s)
      = if key x = s then x :: l.filter (fun u => key u = s)
        else l.filter (fun u => key u = s) := by
  induction l with
  | nil => simp [List.orderedInsert, List.filter_cons]
  | cons b l ih =>
    rw [List.orderedInsert]
    by_cases hb : key b ≤ key x
    · rw [if_pos hb]
      by_cases hx : key x = s
      · simp [hx, List.filter_cons]
      · simp [hx, List.filter_cons]
    · rw [if_neg hb]
      by_cases hx : key x = s
      · have hbx : ¬ key b = s := by omega
        simp [List.filter_cons, hbx, ih, hx]
      · simp [List.filter_cons, ih, hx]

/-- Stability of the descending insertion sort: the subsequence at any fixed
key value is unchanged by sorting. -/
theorem filter_insertionSort_key (key : Unit → Int) (s : Int) (l : List Unit) :
    (List.insertionSort (fun a b => key b ≤ key a) l).filter (fun u => key u = s)
      = l.filter (fun u => key u = s) := by
  induction l with
  | nil => rfl
  | cons x l ih =>
    rw [List.insertionSort, filter_orderedInsert_key, List.filter_cons]
    by_cases hx : key x = s
    · simp [hx, ih]
    · simp [hx, ih]

/-- C3: `fight_round` builds the turn order by concatenating the alive
members of the player team followed by the alive members of the enemy team
and stably sorting descending by effective speed: the resulting sequence is a
permutation of the concatenation, pairwise descending in effective speed,
strictly descending (hence deterministic) when all effective speeds are
pairwise distinct, and for any speed value the equal-speed entities keep the
concatenation order (player-team members before enemy-team members, roster
order within a team). -/
theorem C3_turn_order (p e : Team) :
    ((turnOrder p e).map (deref p e)).Perm (p.alive_units ++ e.alive_units)
    ∧ ((turnOrder p e).map (deref p e)).Pairwise
        (fun a b => b.effective_speed ≤ a.effective_speed)
    ∧ ((p.alive_units ++ e.alive_units).Pairwise
          (fun a b => a.effective_speed ≠ b.effective_speed) →
        ((turnOrder p e).map (deref p e)).Pairwise
          (fun a b => b.effective_speed < a.effective_speed))
    ∧ (∀ s : Int,
        ((turnOrder p e).map (deref p e)).filter (fun u => u.effective_speed = s)
          = (p.alive_units ++ e.alive_units).filter (fun u => u.effective_speed = s)) := by
  have hmap := map_deref_turnOrder p e
  have hsorted : ((turnOrder p e).map (deref p e)).Pairwise
      (fun a b => b.effective_speed ≤ a.effective_speed) := by
    rw [hmap]
    exact @List.sorted_insertionSort Unit
      (fun a b => b.effective_speed ≤ a.effective_speed) _
      ⟨fun a b => le_total _ _⟩ ⟨fun a b c h1 h2 => le_trans h2 h1⟩ _
  have hperm : ((turnOrder p e).map (deref p e)).Perm (p.alive_units ++ e.alive_units) := by
    rw [hmap]
    exact List.perm_insertionSort _ _
  refine ⟨hperm, hsorted, ?_, ?_⟩
  · intro hdist
    have hne : ((turnOrder p e).map (deref p e)).Pairwise
        (fun a b => a.effective_speed ≠ b.effective_speed) :=
      (hperm.pairwise_iff (fun hxy => hxy.symm)).2 hdist
    exact (hsorted.and hne).imp (fun hab => lt_of_le_of_ne hab.1 hab.2.symm)
  · intro s
    rw [hmap]
    exact filter_insertionSort_key (fun u => u.effective_speed) s
      (p.alive_units ++ e.alive_units)

/-- Truncation toward zero of `damage * 1.8` for a non-negative integer
`damage` is integer division of `damage * 9` by `5` (and, the value being
non-negative, agrees with the floor). -/
theorem tdiv_eq_floor_mul_ratio (x : Int) (h : 0 ≤ x) :
    (x * 9).tdiv 5 = ⌊(x : ℚ) * 1.8⌋ := by
  have h1 : (x : ℚ) * 1.8 = ((x * 9 : Int) : ℚ) / ((5 : ℕ) : ℚ) := by
    push_cast
    ring_nf
  rw [h1, Rat.floor_intCast_div_natCast]
  rw [Int.tdiv_eq_ediv (by omega) (by omega)]
  norm_num

/-- C4: the raw damage of an attack is the attacker's effective attack,
except that when the crit roll falls below the attacker's effective crit the
damage is the effective attack multiplied by `1.8` and truncated toward zero
to an integer; no other modification occurs.  The crit event is exactly a
roll in `[0, effective crit)`, a subinterval of the uniform roll range
`[0, 1)` of length equal to the effective crit, so a uniform roll crits with
probability equal to the effective crit. -/
theorem C4_damage_rule (u : Unit) (r : ℚ) (h : 0 ≤ u.effective_attack) :
    (rollDamage u r).1
      = (if r < u.effective_crit then ⌊(u.effective_attack : ℚ) * 1.8⌋
        else u.effective_attack)
    ∧ ((rollDamage u r).2 = true ↔ r < u.effective_crit)
    ∧ (0 ≤ u.effective_crit → u.effective_crit ≤ 1 →
        {x : ℚ | x ∈ Set.Ico (0 : ℚ) 1 ∧ (rollDamage u x).2 = true}
          = Set.Ico 0 u.effective_crit) := by
  have hflag : ∀ x : ℚ, (rollDamage u x).2 = true ↔ x < u.effective_crit := by
    intro x
    unfold rollDamage
    dsimp only
    by_cases hc : x < u.effective_crit
    · simp [hc]
    · simp [hc]
  refine ⟨?_, hflag r, ?_⟩
  · unfold rollDamage
    dsimp only
    by_cases hc : r < u.effective_crit
    · rw [if_pos hc, if_pos hc]
      exact tdiv_eq_floor_mul_ratio _ h
    · rw [if_neg hc, if_neg hc]
  · intro h0 h1
    ext x
    simp only [Set.mem_setOf_eq, Set.mem_Ico, hflag]
    constructor
    · rintro ⟨⟨hx0, _⟩, hc⟩
      exact ⟨hx0, hc⟩
    · rintro ⟨hx0, hc⟩
      exact ⟨⟨hx0, lt_of_lt_of_le hc h1⟩, hc⟩

theorem C4_damage_rule_witness :
    0 ≤ (create_hero "Hero" Weapon.new).effective_attack ∧
    ((rollDamage (create_hero "Hero" Weapon.new) (1/20)).2 = true
      ↔ (1/20 : ℚ) < (create_hero "Hero" Weapon.new).effective_crit) :=
  ⟨by decide, (C4_damage_rule (create_hero "Hero" Weapon.new) (1/20) (by decide)).2.1⟩

theorem C3_turn_order_witness :
    ((⟨"P", [mkUnit "A" 24 7 2 0 5 false none]⟩ : Team).alive_units
        ++ (⟨"E", [mkUnit "B" 18 9 1 0 7 false none]⟩ : Team).alive_units).Pairwise
      (fun a b => a.effective_speed ≠ b.effective_speed) ∧
    ((turnOrder ⟨"P", [mkUnit "A" 24 7 2 0 5 false none]⟩
        ⟨"E", [mkUnit "B" 18 9 1 0 7 false none]⟩).map
      (deref ⟨"P", [mkUnit "A" 24 7 2 0 5 false none]⟩
        ⟨"E", [mkUnit "B" 18 9 1 0 7 false none]⟩)).Pairwise
      (fun a b => b.effective_speed < a.effective_speed) :=
  ⟨by decide,
    (C3_turn_order ⟨"P", [mkUnit "A" 24 7 2 0 5 false none]⟩
      ⟨"E", [mkUnit "B" 18 9 1 0 7 false none]⟩).2.2.1 (by decide)⟩

end Arena
